import Mathlib

set_option maxHeartbeats 1000000

/- Shallow embedding of the async-cart repository (src/src/AsyncCart.ts and its
   companions).  Cart snapshots, buyers and line items are opaque type
   parameters CT, BT, LT, exactly as in the TypeScript generics in
   AsyncCart.ts; provider rejection values are an opaque type E.  An
   asynchronous provider call is modelled by its settlement outcome, a value
   of type Except E CT (ok = the promise resolves, error = it rejects).
   JavaScript null-checks on the object-valued cart snapshot are modelled by
   Option CT.  Dispatched DOM events, calls into the provider and calls into
   the configured onError sink are recorded in a single ordered effect list. -/

deriving instance DecidableEq for Except

/-- Modelled from the spec: the file CartStatus.ts is imported by AsyncCart.ts
but is not part of the provided sources; spec section 4.2 fixes an enumerated
type with exactly the three values IDLE, UPDATING, READY. -/
inductive CartStatus where
  | IDLE
  | UPDATING
  | READY
deriving DecidableEq, Repr

/-- The CartCreateInput type of AsyncCart.ts (lines 6-11): optional buyer,
discount codes, attributes and line items.  The TypeScript record type for
attributes is modelled as an association list. -/
structure CartCreateInput (BT LT : Type) where
  buyer : Option BT := none
  discountCodes : Option (List String) := none
  attributes : Option (List (String × String)) := none
  lineItems : Option (List LT) := none
deriving DecidableEq

/-- The values a cart operation task can reject with: a rejection coming out
of a provider operation, or the coordinator's own thrown
Error with an "Unable to ..." message (AsyncCart.ts lines 117, 125, 133,
141, 149, 157). -/
inductive CartError (E : Type) where
  | provider (err : E)
  | unable (msg : String)
deriving DecidableEq

/-- The ProviderConfig type of AsyncCart.ts (lines 13-32), with the queries
and operations records flattened.  Each asynchronous operation is embedded as
the settlement outcome of the promise it returns.  The onError sink is not a
field here: its invocations are recorded as effects instead. -/
structure ProviderConfig (CT BT LT E : Type) where
  cartId : CT → String
  cartRevisionId : CT → String
  fetch : String → Except E CT
  create : CartCreateInput BT LT → Except E CT
  updateBuyer : CT → BT → Except E CT
  updateDiscountCodes : CT → List String → Except E CT
  updateAttributes : CT → List (String × String) → Except E CT
  addLineItems : CT → List LT → Except E CT
  updateLineItems : CT → List LT → Except E CT
  removeLineItems : CT → List String → Except E CT

/-- The mutable private fields of the AsyncCart class that the claims are
about: _status, _cart and _previousCartRevisionId (AsyncCart.ts lines
42-44). -/
structure CartState (CT : Type) where
  status : CartStatus
  cart : Option CT
  previousCartRevisionId : Option String
deriving DecidableEq

variable {CT BT LT E : Type}

/-- The state established by the AsyncCart constructor (lines 47-55):
status IDLE, no cart snapshot, no previous revision id. -/
def initialState : CartState CT :=
  { status := .IDLE, cart := none, previousCartRevisionId := none }

/-- One public cart operation request, i.e. one call of a public method of
AsyncCart (lines 102-160) identified by the method and its argument. -/
inductive CartOp (BT LT : Type) where
  | fetch (id : String)
  | create (input : CartCreateInput BT LT)
  | updateBuyer (input : BT)
  | updateDiscountCodes (input : List String)
  | updateAttributes (input : List (String × String))
  | addLineItems (input : List LT)
  | updateLineItems (input : List LT)
  | removeLineItems (ids : List String)
deriving DecidableEq

/-- Observable effects of the coordinator, in the order they happen: events
dispatched on the AsyncCart EventTarget (statuschange, idle, change),
deliveries to the configured onError sink, and calls into the provider's
operations. -/
inductive Effect (CT BT LT E : Type) where
  | statuschange (s : CartStatus)
  | idleEvent (cart : Option CT)
  | changeEvent (cart : CT)
  | errorSink (e : CartError E)
  | callFetch (id : String)
  | callCreate (input : CartCreateInput BT LT)
  | callUpdateBuyer (cart : CT) (input : BT)
  | callUpdateDiscountCodes (cart : CT) (codes : List String)
  | callUpdateAttributes (cart : CT) (attrs : List (String × String))
  | callAddLineItems (cart : CT) (items : List LT)
  | callUpdateLineItems (cart : CT) (items : List LT)
  | callRemoveLineItems (cart : CT) (ids : List String)
deriving DecidableEq

/-- How a queued task ends: it settles (resolves or rejects), or it never
settles at all.  The hangs outcome arises on the ensure-cart-exists paths
with no current snapshot: the task awaits this.create (line 116 and
analogues), which enqueues a second task on the same concurrency-1 queue the
first task occupies; the theorem queue_nested_await_never_settles below shows
no execution of the serializer can settle the outer task. -/
inductive TaskOutcome (CT E : Type) where
  | settled (r : Except (CartError E) CT)
  | hangs
deriving DecidableEq

/-- The values runCartOperation captures synchronously at invocation time
(AsyncCart.ts lines 77-78): result = this._cart and currentRevisionId, plus
the operation whose task was enqueued. -/
structure Submitted (CT BT LT : Type) where
  op : CartOp BT LT
  capturedResult : Option CT
  currentRevisionId : Option String

/-- Result of the settlement half of runCartOperation: the new field state,
the effects it produced, and the value the returned promise resolves with. -/
structure SettleOut (CT BT LT E : Type) where
  state : CartState CT
  effects : List (Effect CT BT LT E)
  ret : Option CT

/-- Result of executing the queued tasks of a batch and, in runBatch, the
whole batch: final field state, ordered effects, the resolution value of each
settled operation's promise (in submission order), each settled task's
outcome, and whether some task never settled (deadlock). -/
structure RunOut (CT BT LT E : Type) where
  state : CartState CT
  effects : List (Effect CT BT LT E)
  rets : List (Option CT)
  outcomes : List (Except (CartError E) CT)
  hung : Bool

/-- Lifts a provider settlement into the task's settlement (a provider
rejection rejects the task with that value, caught at line 93). -/
def mapProviderError (r : Except E CT) : Except (CartError E) CT :=
  match r with
  | .ok c => .ok c
  | .error e => .error (.provider e)

/-- The task closure each public method builds for runCartOperation
(AsyncCart.ts lines 102-160), run when the serializer gives it the single
execution slot, reading this._cart at run time.  fetch and create call the
provider directly.  The six ensure-cart-exists mutations evaluate
this._cart, falling back to await this.create with an empty input (line 116
and analogues): with a
snapshot present they call the corresponding provider mutation on it; with no
snapshot they await this.create, whose runCartOperation synchronously sets
status to UPDATING, dispatches a statuschange event (lines 81-82) and
enqueues a second task on the same concurrency-1 queue (lines 84-87) -- that
nested task can never start before the outer task settles while the outer
task awaits it (theorem queue_nested_await_never_settles), so the outer task
never settles and no provider call is made. -/
def operationTask (cfg : ProviderConfig CT BT LT E) (cartAtRun : Option CT) :
    CartOp BT LT → List (Effect CT BT LT E) × TaskOutcome CT E
  | .fetch id => ([.callFetch id], .settled (mapProviderError (cfg.fetch id)))
  | .create input => ([.callCreate input], .settled (mapProviderError (cfg.create input)))
  | .updateBuyer input =>
    match cartAtRun with
    | some c => ([.callUpdateBuyer c input], .settled (mapProviderError (cfg.updateBuyer c input)))
    | none => ([.statuschange .UPDATING], .hangs)
  | .updateDiscountCodes input =>
    match cartAtRun with
    | some c =>
      ([.callUpdateDiscountCodes c input],
       .settled (mapProviderError (cfg.updateDiscountCodes c input)))
    | none => ([.statuschange .UPDATING], .hangs)
  | .updateAttributes input =>
    match cartAtRun with
    | some c =>
      ([.callUpdateAttributes c input],
       .settled (mapProviderError (cfg.updateAttributes c input)))
    | none => ([.statuschange .UPDATING], .hangs)
  | .addLineItems input =>
    match cartAtRun with
    | some c => ([.callAddLineItems c input], .settled (mapProviderError (cfg.addLineItems c input)))
    | none => ([.statuschange .UPDATING], .hangs)
  | .updateLineItems input =>
    match cartAtRun with
    | some c =>
      ([.callUpdateLineItems c input], .settled (mapProviderError (cfg.updateLineItems c input)))
    | none => ([.statuschange .UPDATING], .hangs)
  | .removeLineItems ids =>
    match cartAtRun with
    | some c =>
      ([.callRemoveLineItems c ids], .settled (mapProviderError (cfg.removeLineItems c ids)))
    | none => ([.statuschange .UPDATING], .hangs)

/-- The synchronous first half of runCartOperation (AsyncCart.ts lines
77-87): capture result = this._cart and its revision id (null when no
snapshot), set status to UPDATING, dispatch a statuschange event, and enqueue
the task. -/
def runCartOperationSubmit (cfg : ProviderConfig CT BT LT E) (st : CartState CT)
    (op : CartOp BT LT) :
    CartState CT × List (Effect CT BT LT E) × Submitted CT BT LT :=
  ({ st with status := .UPDATING },
   [.statuschange .UPDATING],
   { op := op, capturedResult := st.cart, currentRevisionId := st.cart.map cfg.cartRevisionId })

/-- The settlement half of runCartOperation (AsyncCart.ts lines 88-99): on
resolution assign this._cart = result and, if the revision changed relative
to the captured currentRevisionId, record that captured value as
_previousCartRevisionId; on rejection deliver the error to the onError sink
and leave the fields alone; in both cases set status to READY and dispatch a
statuschange event; the method's promise resolves with result (the captured
snapshot if the task rejected). -/
def runCartOperationSettle (cfg : ProviderConfig CT BT LT E) (st : CartState CT)
    (capturedResult : Option CT) (currentRevisionId : Option String) :
    Except (CartError E) CT → SettleOut CT BT LT E
  | .ok c =>
    { state :=
        { status := .READY, cart := some c,
          previousCartRevisionId :=
            if some (cfg.cartRevisionId c) ≠ currentRevisionId then currentRevisionId
            else st.previousCartRevisionId },
      effects := [.statuschange .READY],
      ret := some c }
  | .error e =>
    { state := { st with status := .READY },
      effects := [.errorSink e, .statuschange .READY],
      ret := capturedResult }

/-- Runs the queued tasks of a batch in FIFO order.  Each task reads the
current this._cart when it starts; when it settles, the settlement half of
its runCartOperation call runs before the next task starts.  A task that
never settles (nested-create deadlock) blocks the queue: no later task runs,
no later promise resolves, and the batch never drains. -/
def runSubmitted (cfg : ProviderConfig CT BT LT E) :
    CartState CT → List (Submitted CT BT LT) → RunOut CT BT LT E
  | st, [] => { state := st, effects := [], rets := [], outcomes := [], hung := false }
  | st, s :: rest =>
    match operationTask cfg st.cart s.op with
    | (evs, .hangs) => { state := st, effects := evs, rets := [], outcomes := [], hung := true }
    | (evs, .settled r) =>
      let so := runCartOperationSettle cfg st s.capturedResult s.currentRevisionId r
      let ro := runSubmitted cfg so.state rest
      { state := ro.state, effects := evs ++ so.effects ++ ro.effects,
        rets := so.ret :: ro.rets, outcomes := r :: ro.outcomes, hung := ro.hung }

/-- Result of the submission phase of a batch: the field state after all the
synchronous submit halves ran, their effects, and the captured data of each
enqueued task. -/
structure SubmitOut (CT BT LT E : Type) where
  state : CartState CT
  effects : List (Effect CT BT LT E)
  subs : List (Submitted CT BT LT)

/-- The synchronous submit halves of a back-to-back burst of operations, in
caller order; each captures the then-current this._cart, which none of the
submit halves modifies. -/
def submitAll (cfg : ProviderConfig CT BT LT E) :
    CartState CT → List (CartOp BT LT) → SubmitOut CT BT LT E
  | st, [] => { state := st, effects := [], subs := [] }
  | st, op :: rest =>
    let (st1, evs1, sub) := runCartOperationSubmit cfg st op
    let so := submitAll cfg st1 rest
    { state := so.state, effects := evs1 ++ so.effects, subs := sub :: so.subs }

/-- The idle listener the constructor registers on the queue (AsyncCart.ts
lines 57-65): on drain, dispatch an idle event carrying this._cart; then, if
a snapshot exists and its revision id differs from _previousCartRevisionId,
dispatch a change event carrying it. -/
def onQueueIdle (cfg : ProviderConfig CT BT LT E) (st : CartState CT) :
    List (Effect CT BT LT E) :=
  Effect.idleEvent st.cart ::
    (match st.cart with
     | some c =>
       if some (cfg.cartRevisionId c) ≠ st.previousCartRevisionId then [Effect.changeEvent c]
       else []
     | none => [])

/-- One idle-to-idle batch: a nonempty burst of operations submitted
back-to-back from an idle queue.  All submit halves run first (each captures
the same pre-batch snapshot), then the tasks run in FIFO order, each followed
by its settlement half; when the last task settles the queue drains and the
idle listener runs.  If a task never settles, the queue never drains.  An
empty burst performs no queue activity at all. -/
def runBatch (cfg : ProviderConfig CT BT LT E) (st0 : CartState CT)
    (ops : List (CartOp BT LT)) : RunOut CT BT LT E :=
  match ops with
  | [] => { state := st0, effects := [], rets := [], outcomes := [], hung := false }
  | _ :: _ =>
    let so := submitAll cfg st0 ops
    let ro := runSubmitted cfg so.state so.subs
    if ro.hung then { ro with effects := so.effects ++ ro.effects }
    else { ro with effects := so.effects ++ ro.effects ++ onQueueIdle cfg ro.state }

/-- The public fetch method (AsyncCart.ts lines 102-106): it invokes
runCartOperation with the provider fetch closure but neither awaits nor
returns the resulting promise, so the caller-facing promise resolves with
undefined (modelled by Unit) while the operation itself runs through the
queue like every other operation. -/
def fetchMethod (cfg : ProviderConfig CT BT LT E) (st : CartState CT) (id : String) :
    Unit × RunOut CT BT LT E :=
  ((), runBatch cfg st [.fetch id])

/-- Modelled from the spec: the serializer is the p-queue instance of
AsyncCart.ts lines 53-55, whose implementation is an external dependency not
part of this repository; spec section 4.3 fixes its contract: a
single-concurrency FIFO task queue.  Events of its executions: a task (named
by a Nat) is submitted, starts, or settles. -/
inductive QEvent where
  | submit (t : Nat)
  | start (t : Nat)
  | settle (t : Nat)
deriving DecidableEq

/-- Modelled from the spec: the serializer's internal state, a FIFO list of
pending tasks and the at-most-one task currently occupying the execution
slot (spec section 4.3: concurrency fixed at one). -/
structure QState where
  pending : List Nat
  running : Option Nat
deriving DecidableEq

/-- The serializer before anything is submitted. -/
def QState.init : QState := { pending := [], running := none }

/-- Modelled from the spec: one transition of the serializer.  A submission
appends to the pending list; a task starts only when the slot is free and it
is the head of the pending list (strict submission order); a settle frees the
slot. -/
inductive QStep : QState → QEvent → QState → Prop where
  | submit (s : QState) (t : Nat) :
      QStep s (.submit t) { s with pending := s.pending ++ [t] }
  | start (t : Nat) (rest : List Nat) :
      QStep { pending := t :: rest, running := none } (.start t)
        { pending := rest, running := some t }
  | settle (t : Nat) (p : List Nat) :
      QStep { pending := p, running := some t } (.settle t) { pending := p, running := none }

/-- A finite execution of the serializer: a trace of events transforming one
state into another. -/
inductive QExec : QState → List QEvent → QState → Prop where
  | nil (s : QState) : QExec s [] s
  | cons {s s' s'' : QState} {e : QEvent} {tr : List QEvent} :
      QStep s e s' → QExec s' tr s'' → QExec s (e :: tr) s''

/-- Tasks started by a trace, in order. -/
def startsOf (tr : List QEvent) : List Nat :=
  tr.filterMap fun e => match e with | .start t => some t | _ => none

/-- Tasks settled by a trace, in order. -/
def settlesOf (tr : List QEvent) : List Nat :=
  tr.filterMap fun e => match e with | .settle t => some t | _ => none

/-- Tasks submitted by a trace, in order. -/
def submitsOf (tr : List QEvent) : List Nat :=
  tr.filterMap fun e => match e with | .submit t => some t | _ => none

/-- The constructor options AsyncCart passes to the p-queue (AsyncCart.ts
lines 53-55): concurrency 1 and no per-task timeout bound. -/
structure PQueueOptions where
  concurrency : Nat
  timeout : Option Nat := none
deriving DecidableEq

/-- The options runCartOperation passes to every queue.add call
(AsyncCart.ts line 86). -/
structure QueueAddOptions where
  throwOnTimeout : Bool := false
deriving DecidableEq

/-- The queue AsyncCart constructs: concurrency 1, no timeout bound
configured, and ProviderConfig offers no way to set one. -/
def asyncCartQueueOptions : PQueueOptions := { concurrency := 1 }

/-- The add options of every task submission: throwOnTimeout true. -/
def runCartOperationAddOptions : QueueAddOptions := { throwOnTimeout := true }

/-- Modelled from the spec: the per-task timeout policy of the serializer
(spec section 4.3), whose p-queue implementation is not part of this
repository: a task's handle receives a timeout failure exactly when a timeout
bound is configured, the strict throwOnTimeout mode is on, and the task does
not settle within the bound; settleTime none is a task that never settles. -/
def surfacesTimeoutFailure (opts : PQueueOptions) (addOpts : QueueAddOptions)
    (settleTime : Option Nat) : Bool :=
  match opts.timeout with
  | none => false
  | some bound =>
    addOpts.throwOnTimeout &&
      (match settleTime with
       | none => true
       | some t => decide (bound < t))

/-- Recognizes the effects that are calls into the provider. -/
def isProviderCall : Effect CT BT LT E → Bool
  | .callFetch _ => true
  | .callCreate _ => true
  | .callUpdateBuyer _ _ => true
  | .callUpdateDiscountCodes _ _ => true
  | .callUpdateAttributes _ _ => true
  | .callAddLineItems _ _ => true
  | .callUpdateLineItems _ _ => true
  | .callRemoveLineItems _ _ => true
  | _ => false

/-- Recognizes deliveries to the onError sink. -/
def isErrorSink : Effect CT BT LT E → Bool
  | .errorSink _ => true
  | _ => false

/-- Projects the status carried by a statuschange event. -/
def statusOf : Effect CT BT LT E → Option CartStatus
  | .statuschange s => some s
  | _ => none

/-- The carts of the successful outcomes of a batch, in order. -/
def oksOf (outs : List (Except (CartError E) CT)) : List CT :=
  outs.filterMap fun r => match r with | .ok c => some c | .error _ => none

/-- The last element of a list, or a default when the list is empty; matches
how a batch's final snapshot is the last successfully assigned result. -/
def lastOr (d : Option CT) : List CT → Option CT
  | [] => d
  | c :: rest => lastOr (some c) rest

@[simp] theorem startsOf_nil : startsOf [] = [] := rfl

@[simp] theorem startsOf_cons_start (t : Nat) (tr : List QEvent) :
    startsOf (.start t :: tr) = t :: startsOf tr := rfl

@[simp] theorem startsOf_cons_submit (t : Nat) (tr : List QEvent) :
    startsOf (.submit t :: tr) = startsOf tr := rfl

@[simp] theorem startsOf_cons_settle (t : Nat) (tr : List QEvent) :
    startsOf (.settle t :: tr) = startsOf tr := rfl

@[simp] theorem settlesOf_nil : settlesOf [] = [] := rfl

@[simp] theorem settlesOf_cons_start (t : Nat) (tr : List QEvent) :
    settlesOf (.start t :: tr) = settlesOf tr := rfl

@[simp] theorem settlesOf_cons_submit (t : Nat) (tr : List QEvent) :
    settlesOf (.submit t :: tr) = settlesOf tr := rfl

@[simp] theorem settlesOf_cons_settle (t : Nat) (tr : List QEvent) :
    settlesOf (.settle t :: tr) = t :: settlesOf tr := rfl

@[simp] theorem submitsOf_nil : submitsOf [] = [] := rfl

@[simp] theorem submitsOf_cons_start (t : Nat) (tr : List QEvent) :
    submitsOf (.start t :: tr) = submitsOf tr := rfl

@[simp] theorem submitsOf_cons_submit (t : Nat) (tr : List QEvent) :
    submitsOf (.submit t :: tr) = t :: submitsOf tr := rfl

@[simp] theorem submitsOf_cons_settle (t : Nat) (tr : List QEvent) :
    submitsOf (.settle t :: tr) = submitsOf tr := rfl

/-- Decomposing an execution along a split of its trace. -/
theorem qexec_append :
    ∀ {p q : List QEvent} {s s2 : QState}, QExec s (p ++ q) s2 →
      ∃ s1, QExec s p s1 ∧ QExec s1 q s2 := by
  intro p
  induction p with
  | nil => intro q s s2 h; exact ⟨s, .nil s, h⟩
  | cons e p ih =>
    intro q s s2 h
    cases h with
    | cons hstep hrest =>
      obtain ⟨s1, h1, h2⟩ := ih hrest
      exact ⟨s1, .cons hstep h1, h2⟩

/-- The bookkeeping invariant of serializer executions: the settled tasks
followed by the currently running task are exactly the started tasks in
order, and the started tasks followed by the still-pending tasks are exactly
the submitted tasks in order (both relative to the starting state). -/
theorem qexec_counts :
    ∀ {s0 : QState} {tr : List QEvent} {s1 : QState}, QExec s0 tr s1 →
      settlesOf tr ++ s1.running.toList = s0.running.toList ++ startsOf tr
      ∧ startsOf tr ++ s1.pending = s0.pending ++ submitsOf tr := by
  intro s0 tr s1 h
  induction h with
  | nil s => simp
  | cons hstep hrest ih =>
    cases hstep with
    | submit s t =>
      refine ⟨by simpa using ih.1, ?_⟩
      have h2 := ih.2
      simp only [startsOf_cons_submit, submitsOf_cons_submit]
      simp only [QState.mk.injEq] at h2 ⊢
      rw [h2]
      simp
    | start t rest =>
      constructor
      · have h1 := ih.1
        simp only [settlesOf_cons_start, startsOf_cons_start]
        simp at h1 ⊢
        rw [h1]
      · have h2 := ih.2
        simp only [startsOf_cons_start, submitsOf_cons_start]
        simp at h2 ⊢
        rw [h2]
    | settle t p =>
      constructor
      · have h1 := ih.1
        simp only [settlesOf_cons_settle, startsOf_cons_settle]
        simp at h1 ⊢
        rw [h1]
      · have h2 := ih.2
        simp only [startsOf_cons_settle, submitsOf_cons_settle]
        simpa using h2

/-- Splitting a list at the first occurrence of an element. -/
theorem mem_first_split {α : Type} {x : α} :
    ∀ {l : List α}, x ∈ l → ∃ u v, l = u ++ x :: v ∧ x ∉ u := by
  intro l
  induction l with
  | nil => intro h; cases h
  | cons a t ih =>
    intro h
    by_cases hax : a = x
    · exact ⟨[], t, by rw [hax]; rfl, by simp⟩
    · have hxt : x ∈ t := by
        cases h with
        | head => exact absurd rfl hax
        | tail _ h => exact h
      obtain ⟨u, v, heq, hnot⟩ := ih hxt
      refine ⟨a :: u, v, by rw [heq]; rfl, ?_⟩
      intro hmem
      rcases List.mem_cons.mp hmem with h1 | h2
      · exact hax h1.symm
      · exact hnot h2

/-- While a task occupies the serializer's single execution slot, no other
task can settle before it does: a settle event of any other task is preceded
in the trace by the running task's settle event. -/
theorem queue_running_blocks_other_settle {a b : Nat} (hab : a ≠ b) :
    ∀ {s0 : QState} {tr : List QEvent} {s1 : QState}, QExec s0 tr s1 →
      s0.running = some a →
      ∀ u v, tr = u ++ QEvent.settle b :: v → QEvent.settle a ∈ u := by
  intro s0 tr s1 h
  induction h with
  | nil s =>
    intro _ u v heq
    exact absurd heq (by simp)
  | cons hstep hrest ih =>
    intro hrun u v heq
    cases u with
    | nil =>
      simp only [List.nil_append, List.cons.injEq] at heq
      cases hstep with
      | submit s t => exact absurd heq.1 (by simp)
      | start t rest => simp at hrun
      | settle t p =>
        have hta : t = a := by simpa using hrun
        have htb : t = b := by simpa using heq.1
        exact absurd (hta ▸ htb) hab
    | cons u0 u' =>
      simp only [List.cons_append, List.cons.injEq] at heq
      cases hstep with
      | submit s t =>
        exact List.mem_cons_of_mem u0 (ih hrun u' v heq.2)
      | start t rest => simp at hrun
      | settle t p =>
        have hta : t = a := by simpa using hrun
        rw [← heq.1, hta]
        exact List.mem_cons_self _ _

/-- The nested-create deadlock of the serializer: start from a state in which
task a occupies the single execution slot (with any pending list); if every
settlement of a must be preceded by a settlement of b -- which is the
situation of an ensure-cart-exists task a awaiting the this.create task b it
itself submitted, AsyncCart.ts line 116 with lines 84-87 -- then no execution
of the serializer ever settles a. -/
theorem queue_nested_await_never_settles {a b : Nat} (hab : a ≠ b)
    {pnd : List Nat} {tr : List QEvent} {s1 : QState}
    (hexec : QExec { pending := pnd, running := some a } tr s1)
    (hawait : ∀ u v, tr = u ++ QEvent.settle a :: v → QEvent.settle b ∈ u) :
    QEvent.settle a ∉ tr := by
  intro hmem
  obtain ⟨u, v, heq, hnot⟩ := mem_first_split hmem
  have hbu : QEvent.settle b ∈ u := hawait u v heq
  obtain ⟨u1, v1, hequ, _⟩ := mem_first_split hbu
  have heq2 : tr = u1 ++ QEvent.settle b :: (v1 ++ QEvent.settle a :: v) := by
    rw [heq, hequ]; simp
  have hau1 : QEvent.settle a ∈ u1 :=
    queue_running_blocks_other_settle hab hexec rfl u1 _ heq2
  exact hnot (by rw [hequ]; exact List.mem_append_left _ hau1)

/-- Claim C4: in every execution of the serializer from its initial state and
at every instant (i.e. for every prefix of the trace), at most one task is in
flight, the tasks that have started are exactly the already-settled tasks
followed by at most one still-running task -- so execution of a task never
begins before every earlier-started task has settled -- and tasks start
exactly in submission order (the started tasks are an initial segment of the
submitted tasks, witnessed by the still-pending suffix). -/
theorem serializer_single_flight_fifo :
    ∀ (tr : List QEvent) (sf : QState), QExec QState.init tr sf →
      ∀ p q : List QEvent, tr = p ++ q →
        (∃ r : Option Nat, startsOf p = settlesOf p ++ r.toList)
        ∧ (∃ pnd : List Nat, submitsOf p = startsOf p ++ pnd)
        ∧ (startsOf p).length ≤ (settlesOf p).length + 1 := by
  intro tr sf hexec p q heq
  obtain ⟨s1, hp, _⟩ := qexec_append (heq ▸ hexec)
  obtain ⟨h1, h2⟩ := qexec_counts hp
  simp only [QState.init] at h1 h2
  simp only [Option.toList_none, List.nil_append] at h1 h2
  refine ⟨⟨s1.running, h1.symm⟩, ⟨s1.pending, h2.symm⟩, ?_⟩
  have hl : (startsOf p).length = (settlesOf p).length + s1.running.toList.length := by
    have := congrArg List.length h1
    simp at this
    omega
  have hlen : s1.running.toList.length ≤ 1 := by
    cases s1.running <;> simp
  omega

/-- Concrete serialized execution used to instantiate
serializer_single_flight_fifo: two tasks submitted back-to-back, executed one
after the other in submission order. -/
def demoTrace : List QEvent :=
  [.submit 0, .submit 1, .start 0, .settle 0, .start 1, .settle 1]

/-- Witness for claim C4: the demo trace is a valid execution of the
serializer, and the theorem's conclusions hold on it. -/
theorem serializer_single_flight_fifo_witness :
    QExec QState.init demoTrace { pending := [], running := none }
    ∧ ((∃ r : Option Nat, startsOf demoTrace = settlesOf demoTrace ++ r.toList)
       ∧ (∃ pnd : List Nat, submitsOf demoTrace = startsOf demoTrace ++ pnd)
       ∧ (startsOf demoTrace).length ≤ (settlesOf demoTrace).length + 1) := by
  have hexec : QExec QState.init demoTrace { pending := [], running := none } :=
    .cons (.submit { pending := [], running := none } 0)
      (.cons (.submit { pending := [0], running := none } 1)
        (.cons (.start 0 [1])
          (.cons (.settle 0 [1])
            (.cons (.start 1 [])
              (.cons (.settle 1 []) (.nil _))))))
  exact ⟨hexec,
    serializer_single_flight_fifo demoTrace { pending := [], running := none } hexec
      demoTrace [] (by simp)⟩

/-- Claim C7: the queue AsyncCart constructs has no timeout bound (lines
53-55 pass only concurrency 1, and ProviderConfig exposes no way to set one),
so although every queue.add passes throwOnTimeout true (line 86), no task
ever surfaces a timeout failure -- in particular a task that never settles
(settleTime none, e.g. the nested-create deadlock) hangs indefinitely instead
of failing with a timeout. -/
theorem no_timeout_failure_ever_surfaced :
    ∀ settleTime : Option Nat,
      surfacesTimeoutFailure asyncCartQueueOptions runCartOperationAddOptions settleTime
        = false := by
  intro s
  rfl

/-- A concrete provider over string-valued carts whose operations all succeed
and whose revision id is constantly r0: the provider of spec section 8's
change-coalescing test ("a fake provider that returns identical revision ids
for two consecutive operations"). -/
def cfg0 : ProviderConfig String Unit Unit String :=
  { cartId := fun _ => "cart"
    cartRevisionId := fun _ => "r0"
    fetch := fun _ => .ok "c"
    create := fun _ => .ok "c"
    updateBuyer := fun c _ => .ok c
    updateDiscountCodes := fun c _ => .ok c
    updateAttributes := fun c _ => .ok c
    addLineItems := fun c _ => .ok c
    updateLineItems := fun c _ => .ok c
    removeLineItems := fun c _ => .ok c }

/-- Claim C1: evaluating the code at the failing input.  Calling
updateAttributes with empty attributes on a fresh coordinator (no current
snapshot) never settles: the task awaits this.create, which enqueues a second
task on the same concurrency-1 queue the first task occupies
(queue_nested_await_never_settles), so contrary to the claim the provider
create operation is never invoked, no provider mutation is invoked, the
operation produces no result, and the only observable effects are the two
statuschange UPDATING dispatches of the outer and nested runCartOperation
submissions. -/
theorem updateAttributes_without_snapshot_never_settles :
    (runBatch cfg0 initialState [CartOp.updateAttributes []]).hung = true
    ∧ (runBatch cfg0 initialState [CartOp.updateAttributes []]).effects
        = [Effect.statuschange .UPDATING, Effect.statuschange .UPDATING]
    ∧ (∀ e ∈ (runBatch cfg0 initialState [CartOp.updateAttributes []]).effects,
        isProviderCall e = false)
    ∧ (runBatch cfg0 initialState [CartOp.updateAttributes []]).outcomes = []
    ∧ (runBatch cfg0 initialState [CartOp.updateAttributes []]).rets = [] := by
  decide

/-- Claim C6: evaluating the code at the failing input.  Calling updateBuyer
on a fresh coordinator (no snapshot) deadlocks inside the implicit creation
attempt, so the distinct Unable-to-update-buyer error of AsyncCart.ts line
117 is never reached: nothing is signaled to the caller (the promise never
resolves), nothing reaches the onError sink, and no provider operation is
called. -/
theorem updateBuyer_without_snapshot_signals_nothing :
    (runBatch cfg0 initialState [CartOp.updateBuyer ()]).hung = true
    ∧ (runBatch cfg0 initialState [CartOp.updateBuyer ()]).rets = []
    ∧ (∀ e ∈ (runBatch cfg0 initialState [CartOp.updateBuyer ()]).effects,
        isErrorSink e = false)
    ∧ (∀ e ∈ (runBatch cfg0 initialState [CartOp.updateBuyer ()]).effects,
        isProviderCall e = false) := by
  decide

/-- Claim C2, counterexample: a batch that starts and ends at the same
revision still emits a change event.  With the constant-revision provider
cfg0, a first batch creates the cart (revision r0, change fires, and
_previousCartRevisionId is recorded as null); a second one-operation batch
starts at revision r0, drains at revision r0, and nevertheless dispatches a
change event, because the drain comparison is made against the stale stored
previous revision (null) rather than the batch's starting revision. -/
theorem change_event_despite_unchanged_batch_revision :
    ((runBatch cfg0 initialState [CartOp.create {}]).state.cart.map cfg0.cartRevisionId
        = some "r0")
    ∧ ((runBatch cfg0 (runBatch cfg0 initialState [CartOp.create {}]).state
          [CartOp.create {}]).state.cart.map cfg0.cartRevisionId = some "r0")
    ∧ (runBatch cfg0 (runBatch cfg0 initialState [CartOp.create {}]).state
          [CartOp.create {}]).hung = false
    ∧ Effect.changeEvent "c"
        ∈ (runBatch cfg0 (runBatch cfg0 initialState [CartOp.create {}]).state
            [CartOp.create {}]).effects := by
  decide

/-- Membership of a change event in the idle listener output, characterized
by the drain-time comparison of AsyncCart.ts lines 59-64. -/
theorem changeEvent_mem_onQueueIdle (cfg : ProviderConfig CT BT LT E)
    (st : CartState CT) (c : CT) :
    Effect.changeEvent c ∈ onQueueIdle cfg st ↔
      (st.cart = some c ∧ some (cfg.cartRevisionId c) ≠ st.previousCartRevisionId) := by
  constructor
  · intro hmem
    rcases List.mem_cons.mp hmem with h1 | h2
    · simp at h1
    · cases hc : st.cart with
      | none =>
        rw [hc] at h2
        simp at h2
      | some d =>
        rw [hc] at h2
        by_cases hrev : some (cfg.cartRevisionId d) ≠ st.previousCartRevisionId
        · simp [hrev] at h2
          subst h2
          exact ⟨rfl, hrev⟩
        · simp [hrev] at h2
  · intro h
    obtain ⟨h1, h2⟩ := h
    have : onQueueIdle cfg st
        = Effect.idleEvent st.cart ::
          (if some (cfg.cartRevisionId c) ≠ st.previousCartRevisionId
           then [Effect.changeEvent c] else []) := by
      unfold onQueueIdle
      rw [h1]
    rw [this, if_pos h2]
    exact List.mem_cons_of_mem _ (List.mem_cons_self _ _)

/-- The effects a task produces before settling never include a delivery to
the onError sink: a provider call on the settling paths, a statuschange
dispatch on the deadlocking path. -/
theorem operationTask_no_errorSink (cfg : ProviderConfig CT BT LT E)
    (cart : Option CT) (op : CartOp BT LT) :
    ((operationTask cfg cart op).1).countP isErrorSink = 0 := by
  cases op <;> cases cart <;> simp [operationTask, isErrorSink, List.countP_cons]

/-- The effects a task produces before settling never include a change
event. -/
theorem operationTask_no_change (cfg : ProviderConfig CT BT LT E)
    (cart : Option CT) (op : CartOp BT LT) (c : CT) :
    Effect.changeEvent c ∉ (operationTask cfg cart op).1 := by
  cases op <;> cases cart <;> simp [operationTask]

/-- A task that settles produced no statuschange dispatch of its own while
running (the only statuschange a task body can dispatch comes from the
nested-create submission of the deadlocking path). -/
theorem operationTask_settled_no_status (cfg : ProviderConfig CT BT LT E)
    (cart : Option CT) (op : CartOp BT LT) (r : Except (CartError E) CT)
    (h : (operationTask cfg cart op).2 = .settled r) :
    ((operationTask cfg cart op).1).filterMap statusOf = [] := by
  cases op <;> cases cart <;> simp_all [operationTask, statusOf]

/-- The idle listener output contains no statuschange dispatch. -/
theorem onQueueIdle_no_status (cfg : ProviderConfig CT BT LT E) (st : CartState CT) :
    (onQueueIdle cfg st).filterMap statusOf = [] := by
  cases hc : st.cart with
  | none => simp [onQueueIdle, hc, statusOf]
  | some c =>
    by_cases hrev : some (cfg.cartRevisionId c) ≠ st.previousCartRevisionId <;>
      simp [onQueueIdle, hc, hrev, statusOf]

/-- The idle listener output contains no delivery to the onError sink. -/
theorem onQueueIdle_no_errorSink (cfg : ProviderConfig CT BT LT E) (st : CartState CT) :
    (onQueueIdle cfg st).countP isErrorSink = 0 := by
  cases hc : st.cart with
  | none => simp [onQueueIdle, hc, isErrorSink, List.countP_cons]
  | some c =>
    by_cases hrev : some (cfg.cartRevisionId c) ≠ st.previousCartRevisionId <;>
      simp [onQueueIdle, hc, hrev, isErrorSink, List.countP_cons]

/-- Claim C9: the idle listener always dispatches an idle event first,
carrying the current snapshot -- also when that snapshot is null -- and a
change event can only be dispatched carrying an existing current snapshot:
with a null snapshot the listener dispatches exactly the idle event and
nothing else, whatever _previousCartRevisionId holds.  Moreover, whenever a
nonempty batch drains, the coordinator's effects end with exactly this idle
listener output. -/
theorem idle_event_always_change_needs_snapshot (cfg : ProviderConfig CT BT LT E)
    (st : CartState CT) :
    (onQueueIdle cfg st).head? = some (.idleEvent st.cart)
    ∧ (∀ c : CT, Effect.changeEvent c ∈ onQueueIdle cfg st → st.cart = some c)
    ∧ (st.cart = none → onQueueIdle cfg st = [.idleEvent none])
    ∧ (∀ ops : List (CartOp BT LT), ops ≠ [] → (runBatch cfg st ops).hung = false →
        ∃ pre, (runBatch cfg st ops).effects
          = pre ++ onQueueIdle cfg (runBatch cfg st ops).state) := by
  refine ⟨rfl, ?_, ?_, ?_⟩
  · intro c hmem
    exact ((changeEvent_mem_onQueueIdle cfg st c).mp hmem).1
  · intro hc
    simp [onQueueIdle, hc]
  · intro ops hne hng
    cases ops with
    | nil => exact absurd rfl hne
    | cons op rest =>
      have hro :
          (runSubmitted cfg (submitAll cfg st (op :: rest)).state
            (submitAll cfg st (op :: rest)).subs).hung = false := by
        by_contra hcon
        simp only [Bool.not_eq_false] at hcon
        simp [runBatch, hcon] at hng
      refine ⟨(submitAll cfg st (op :: rest)).effects
        ++ (runSubmitted cfg (submitAll cfg st (op :: rest)).state
              (submitAll cfg st (op :: rest)).subs).effects, ?_⟩
      simp [runBatch, hro]

/-- Witness for claim C9: the theorem instantiated at the constant-revision
provider and the fresh coordinator state. -/
theorem idle_event_always_change_needs_snapshot_witness :
    (onQueueIdle cfg0 (initialState : CartState String)).head?
        = some (.idleEvent none)
    ∧ (∀ c : String,
        Effect.changeEvent c ∈ onQueueIdle cfg0 (initialState : CartState String) →
          (initialState : CartState String).cart = some c)
    ∧ ((initialState : CartState String).cart = none →
        onQueueIdle cfg0 (initialState : CartState String) = [.idleEvent none])
    ∧ (∀ ops : List (CartOp Unit Unit), ops ≠ [] →
        (runBatch cfg0 (initialState : CartState String) ops).hung = false →
          ∃ pre, (runBatch cfg0 (initialState : CartState String) ops).effects
            = pre
              ++ onQueueIdle cfg0
                  (runBatch cfg0 (initialState : CartState String) ops).state) := by
  have h := idle_event_always_change_needs_snapshot cfg0 (initialState : CartState String)
  exact ⟨h.1, h.2.1, h.2.2.1, h.2.2.2⟩

/-- The submission phase of a back-to-back burst: every task captures the
same pre-batch snapshot and its revision id (the submit halves never touch
this._cart), the snapshot and previous-revision fields are unchanged, and the
only effects are the statuschange UPDATING dispatches, one per operation. -/
theorem submitAll_spec (cfg : ProviderConfig CT BT LT E) :
    ∀ (ops : List (CartOp BT LT)) (st : CartState CT),
      (submitAll cfg st ops).subs
          = ops.map (fun op =>
              { op := op, capturedResult := st.cart,
                currentRevisionId := st.cart.map cfg.cartRevisionId })
      ∧ (submitAll cfg st ops).state.cart = st.cart
      ∧ (submitAll cfg st ops).state.previousCartRevisionId = st.previousCartRevisionId
      ∧ (submitAll cfg st ops).effects
          = ops.map (fun _ => Effect.statuschange .UPDATING) := by
  intro ops
  induction ops with
  | nil => intro st; simp [submitAll]
  | cons op rest ih =>
    intro st
    obtain ⟨h1, h2, h3, h4⟩ := ih { st with status := .UPDATING }
    refine ⟨?_, ?_, ?_, ?_⟩ <;>
      simp [submitAll, runCartOperationSubmit, h1, h2, h3, h4]

/-- The task-execution phase of a batch never dispatches a change event:
change events come only from the idle listener. -/
theorem runSubmitted_no_change (cfg : ProviderConfig CT BT LT E) :
    ∀ (subs : List (Submitted CT BT LT)) (st : CartState CT) (c : CT),
      Effect.changeEvent c ∉ (runSubmitted cfg st subs).effects := by
  intro subs
  induction subs with
  | nil => intro st c; simp [runSubmitted]
  | cons s rest ih =>
    intro st c
    rcases hop : operationTask cfg st.cart s.op with ⟨evs, outc⟩
    have hno := operationTask_no_change cfg st.cart s.op c
    rw [hop] at hno
    cases outc with
    | hangs =>
      simp only [runSubmitted, hop]
      exact hno
    | settled r =>
      cases r with
      | ok c' =>
        simp only [runSubmitted, hop, runCartOperationSettle, List.mem_append]
        intro hmem
        rcases hmem with (h | h) | h
        · exact hno h
        · simp at h
        · exact ih _ c h
      | error e =>
        simp only [runSubmitted, hop, runCartOperationSettle, List.mem_append]
        intro hmem
        rcases hmem with (h | h) | h
        · exact hno h
        · simp at h
        · exact ih _ c h

@[simp] theorem oksOf_nil : oksOf ([] : List (Except (CartError E) CT)) = [] := rfl

@[simp] theorem oksOf_cons_ok (c : CT) (l : List (Except (CartError E) CT)) :
    oksOf (.ok c :: l) = c :: oksOf l := rfl

@[simp] theorem oksOf_cons_error (e : CartError E) (l : List (Except (CartError E) CT)) :
    oksOf (.error e :: l) = oksOf l := rfl

@[simp] theorem lastOr_nil (d : Option CT) : lastOr d [] = d := rfl

@[simp] theorem lastOr_cons (d : Option CT) (c : CT) (l : List CT) :
    lastOr d (c :: l) = lastOr (some c) l := rfl

/-- Once seeded with an existing cart, lastOr yields an existing cart drawn
from the seed or the list. -/
theorem lastOr_mem :
    ∀ (l : List CT) (c : CT), ∃ d, lastOr (some c) l = some d ∧ (d = c ∨ d ∈ l) := by
  intro l
  induction l with
  | nil => intro c; exact ⟨c, rfl, .inl rfl⟩
  | cons a t ih =>
    intro c
    obtain ⟨d, h, hd⟩ := ih a
    refine ⟨d, h, .inr ?_⟩
    rcases hd with h1 | h2
    · rw [h1]; exact List.mem_cons_self _ _
    · exact List.mem_cons_of_mem _ h2

/-- When every outcome succeeded, the successful carts are in bijection with
the outcomes. -/
theorem oksOf_length (outs : List (Except (CartError E) CT))
    (h : ∀ o ∈ outs, ∃ c, o = .ok c) : (oksOf outs).length = outs.length := by
  induction outs with
  | nil => rfl
  | cons o l ih =>
    obtain ⟨c, hc⟩ := h o (List.mem_cons_self _ _)
    subst hc
    simp [ih fun x hx => h x (List.mem_cons_of_mem _ hx)]

/-- Characterization of the task-execution phase of a batch in which every
task captured the same pre-batch revision id rho0 (as happens for
back-to-back submission) and no task deadlocked: the final snapshot is the
last successfully assigned result (or the initial snapshot when no task
succeeded), _previousCartRevisionId is overwritten with rho0 exactly when
some successful task returned a revision different from rho0 (AsyncCart.ts
lines 90-92) and is otherwise untouched, and every task settled. -/
theorem runSubmitted_char (cfg : ProviderConfig CT BT LT E) (rho0 : Option String) :
    ∀ (subs : List (Submitted CT BT LT)) (st : CartState CT),
      (∀ s ∈ subs, s.currentRevisionId = rho0) →
      (runSubmitted cfg st subs).hung = false →
      ((runSubmitted cfg st subs).state.cart
          = lastOr st.cart (oksOf (runSubmitted cfg st subs).outcomes))
      ∧ ((runSubmitted cfg st subs).state.previousCartRevisionId
          = if (oksOf (runSubmitted cfg st subs).outcomes).any
                (fun c => decide (some (cfg.cartRevisionId c) ≠ rho0))
            then rho0 else st.previousCartRevisionId)
      ∧ ((runSubmitted cfg st subs).outcomes.length = subs.length) := by
  intro subs
  induction subs with
  | nil =>
    intro st _ _
    simp [runSubmitted]
  | cons s rest ih =>
    intro st hcap hng
    rcases hop : operationTask cfg st.cart s.op with ⟨evs, outc⟩
    cases outc with
    | hangs => simp [runSubmitted, hop] at hng
    | settled r =>
      have hs : s.currentRevisionId = rho0 := hcap s (List.mem_cons_self _ _)
      have hrest : ∀ x ∈ rest, x.currentRevisionId = rho0 := fun x hx =>
        hcap x (List.mem_cons_of_mem _ hx)
      cases r with
      | ok c =>
        have hng' :
            (runSubmitted cfg
              (runCartOperationSettle cfg st s.capturedResult s.currentRevisionId
                (.ok c)).state rest).hung = false := by
          simpa [runSubmitted, hop] using hng
        obtain ⟨ih1, ih2, ih3⟩ :=
          ih (runCartOperationSettle cfg st s.capturedResult s.currentRevisionId
            (.ok c)).state hrest hng'
        rw [hs] at ih2
        refine ⟨?_, ?_, ?_⟩
        · simpa [runSubmitted, hop, runCartOperationSettle] using ih1
        · by_cases hb : some (cfg.cartRevisionId c) ≠ rho0
          · simp only [runSubmitted, hop, runCartOperationSettle, hs] at ih2 ⊢
            simp only [if_pos hb] at ih2
            simp [hb, ih2]
          · simp only [runSubmitted, hop, runCartOperationSettle, hs] at ih2 ⊢
            simp only [if_neg hb] at ih2
            simp [hb, ih2]
        · simpa [runSubmitted, hop] using ih3
      | error e =>
        have hng' :
            (runSubmitted cfg
              (runCartOperationSettle cfg st s.capturedResult s.currentRevisionId
                (.error e)).state rest).hung = false := by
          simpa [runSubmitted, hop] using hng
        obtain ⟨ih1, ih2, ih3⟩ :=
          ih (runCartOperationSettle cfg st s.capturedResult s.currentRevisionId
            (.error e)).state hrest hng'
        refine ⟨?_, ?_, ?_⟩
        · simpa [runSubmitted, hop, runCartOperationSettle] using ih1
        · simpa [runSubmitted, hop, runCartOperationSettle] using ih2
        · simpa [runSubmitted, hop] using ih3

/-- Claim C2 as amended: for a drained nonempty back-to-back batch all of
whose tasks succeeded, a change event is emitted at drain time if and only
if: when some task of the batch returned a revision different from the
batch's starting revision, the ending revision differs from the starting
revision (this is the case the original claim describes); but when every task
returned the starting revision, a change event is emitted exactly when the
starting revision differs from the previously stored
_previousCartRevisionId, which can be stale from an earlier batch -- so a
batch that starts and ends at the same revision can still emit change. -/
theorem change_event_drain_characterization (cfg : ProviderConfig CT BT LT E)
    (st0 : CartState CT) (ops : List (CartOp BT LT))
    (hne : ops ≠ [])
    (hng : (runBatch cfg st0 ops).hung = false)
    (hok : ∀ o ∈ (runBatch cfg st0 ops).outcomes, ∃ c, o = .ok c) :
    (∃ c, Effect.changeEvent c ∈ (runBatch cfg st0 ops).effects) ↔
      (if (oksOf (runBatch cfg st0 ops).outcomes).any
            (fun c => decide (some (cfg.cartRevisionId c)
              ≠ st0.cart.map cfg.cartRevisionId))
        then (runBatch cfg st0 ops).state.cart.map cfg.cartRevisionId
              ≠ st0.cart.map cfg.cartRevisionId
        else st0.cart.map cfg.cartRevisionId ≠ st0.previousCartRevisionId) := by
  cases ops with
  | nil => exact absurd rfl hne
  | cons op rest =>
    obtain ⟨hsubs, hcart, hprev, heffs⟩ := submitAll_spec cfg (op :: rest) st0
    set so := submitAll cfg st0 (op :: rest) with hso
    set ro := runSubmitted cfg so.state so.subs with hroeq
    have hro : ro.hung = false := by
      by_contra hcon
      simp only [Bool.not_eq_false] at hcon
      simp only [runBatch] at hng
      rw [← hso, ← hroeq] at hng
      simp [hcon] at hng
    have hmain : runBatch cfg st0 (op :: rest)
        = { ro with effects := so.effects ++ ro.effects ++ onQueueIdle cfg ro.state } := by
      simp only [runBatch]
      rw [← hso, ← hroeq]
      simp [hro]
    have hcap : ∀ s ∈ so.subs,
        s.currentRevisionId = st0.cart.map cfg.cartRevisionId := by
      intro s hs
      rw [hsubs] at hs
      obtain ⟨o, -, rfl⟩ := List.mem_map.mp hs
      rfl
    obtain ⟨ih1, ih2, ih3⟩ :=
      runSubmitted_char cfg (st0.cart.map cfg.cartRevisionId) so.subs so.state hcap hro
    rw [← hroeq] at ih1 ih2 ih3
    rw [hcart] at ih1
    rw [hprev] at ih2
    have hok' : ∀ o ∈ ro.outcomes, ∃ c, o = .ok c := by
      intro o ho
      apply hok
      rw [hmain]
      exact ho
    have hlen : (oksOf ro.outcomes).length = rest.length + 1 := by
      rw [oksOf_length _ hok', ih3, hsubs]
      simp
    rw [hmain]
    obtain ⟨c1, oks', hoks⟩ : ∃ c1 oks', oksOf ro.outcomes = c1 :: oks' := by
      cases h2 : oksOf ro.outcomes with
      | nil => rw [h2] at hlen; simp at hlen
      | cons a b => exact ⟨a, b, rfl⟩
    obtain ⟨d, hlast, hd⟩ := lastOr_mem oks' c1
    have hcartEq : ro.state.cart = some d := by
      rw [ih1, hoks, lastOr_cons, hlast]
    have hdmem : d ∈ oksOf ro.outcomes := by
      rw [hoks]
      rcases hd with h1 | h2
      · rw [h1]; exact List.mem_cons_self _ _
      · exact List.mem_cons_of_mem _ h2
    have hlhs : (∃ c, Effect.changeEvent c
          ∈ so.effects ++ ro.effects ++ onQueueIdle cfg ro.state)
        ↔ (∃ c, Effect.changeEvent c ∈ onQueueIdle cfg ro.state) := by
      constructor
      · rintro ⟨c, hc⟩
        rcases List.mem_append.mp hc with h | h
        · rcases List.mem_append.mp h with h1 | h2
          · rw [heffs] at h1
            obtain ⟨o, -, habs⟩ := List.mem_map.mp h1
            cases habs
          · rw [hroeq] at h2
            exact absurd h2 (runSubmitted_no_change cfg so.subs so.state c)
        · exact ⟨c, h⟩
      · rintro ⟨c, hc⟩
        exact ⟨c, List.mem_append_right _ hc⟩
    rw [hlhs]
    have hex : (∃ c, Effect.changeEvent c ∈ onQueueIdle cfg ro.state)
        ↔ (some (cfg.cartRevisionId d) ≠ ro.state.previousCartRevisionId) := by
      constructor
      · rintro ⟨c, hc⟩
        obtain ⟨h1, h2⟩ := (changeEvent_mem_onQueueIdle cfg ro.state c).mp hc
        rw [hcartEq] at h1
        injection h1 with h1
        rw [h1]
        exact h2
      · intro hp
        exact ⟨d, (changeEvent_mem_onQueueIdle cfg ro.state d).mpr ⟨hcartEq, hp⟩⟩
    rw [hex]
    cases hany : (oksOf ro.outcomes).any
        (fun c => decide (some (cfg.cartRevisionId c)
          ≠ st0.cart.map cfg.cartRevisionId)) with
    | true =>
      rw [hany] at ih2
      simp at ih2
      simp only [hany]
      rw [if_pos trivial]
      rw [ih2, hcartEq]
      simp
    | false =>
      rw [hany] at ih2
      simp at ih2
      have hall := List.any_eq_false.mp hany
      have hdrev : some (cfg.cartRevisionId d) = st0.cart.map cfg.cartRevisionId := by
        have := hall d hdmem
        simpa using this
      simp only [hany]
      rw [if_neg (by simp), ih2, hdrev]

/-- A concrete provider over string-valued carts whose revision id is the
cart value itself: create yields cart c1, fetch yields cart f1, updateBuyer
always rejects with boom, and the remaining mutations succeed leaving the
cart unchanged. -/
def cfgW : ProviderConfig String Unit Unit String :=
  { cartId := fun c => c
    cartRevisionId := fun c => c
    fetch := fun _ => .ok "f1"
    create := fun _ => .ok "c1"
    updateBuyer := fun _ _ => .error "boom"
    updateDiscountCodes := fun c _ => .ok c
    updateAttributes := fun c _ => .ok c
    addLineItems := fun c _ => .ok c
    updateLineItems := fun c _ => .ok c
    removeLineItems := fun c _ => .ok c }

/-- Witness for the amended claim C2: a singleton all-successful batch from
the fresh state, on which the theorem's hypotheses hold and the
characterization applies. -/
theorem change_event_drain_characterization_witness :
    ([CartOp.create {}] ≠ ([] : List (CartOp Unit Unit)))
    ∧ (runBatch cfgW initialState [CartOp.create {}]).hung = false
    ∧ (∀ o ∈ (runBatch cfgW initialState [CartOp.create {}]).outcomes,
        ∃ c, o = Except.ok c)
    ∧ ((∃ c, Effect.changeEvent c
          ∈ (runBatch cfgW initialState [CartOp.create {}]).effects) ↔
        (if (oksOf (runBatch cfgW initialState [CartOp.create {}]).outcomes).any
              (fun c => decide (some (cfgW.cartRevisionId c)
                ≠ (initialState : CartState String).cart.map cfgW.cartRevisionId))
          then (runBatch cfgW initialState [CartOp.create {}]).state.cart.map
                cfgW.cartRevisionId
              ≠ (initialState : CartState String).cart.map cfgW.cartRevisionId
          else (initialState : CartState String).cart.map cfgW.cartRevisionId
              ≠ (initialState : CartState String).previousCartRevisionId)) := by
  have houts : (runBatch cfgW initialState [CartOp.create {}]).outcomes
      = [Except.ok "c1"] := by decide
  have hok : ∀ o ∈ (runBatch cfgW initialState [CartOp.create {}]).outcomes,
      ∃ c, o = Except.ok c := by
    intro o ho
    rw [houts] at ho
    simp at ho
    exact ⟨"c1", ho⟩
  exact ⟨by simp, by decide, hok,
    change_event_drain_characterization cfgW initialState [CartOp.create {}]
      (by simp) (by decide) hok⟩

/-- In the task-execution phase of a batch whose tasks all captured the same
pre-batch snapshot r0 (back-to-back submission), the promise of every task
that rejected resolves with r0, whatever the snapshot is by then. -/
theorem runSubmitted_rets_error (cfg : ProviderConfig CT BT LT E) (r0 : Option CT) :
    ∀ (subs : List (Submitted CT BT LT)) (st : CartState CT),
      (∀ s ∈ subs, s.capturedResult = r0) →
      ∀ (i : Nat) (e : CartError E),
        (runSubmitted cfg st subs).outcomes.get? i = some (.error e) →
        (runSubmitted cfg st subs).rets.get? i = some r0 := by
  intro subs
  induction subs with
  | nil =>
    intro st _ i e h
    simp [runSubmitted] at h
  | cons s rest ih =>
    intro st hcap i e h
    rcases hop : operationTask cfg st.cart s.op with ⟨evs, outc⟩
    cases outc with
    | hangs => simp [runSubmitted, hop] at h
    | settled r =>
      have hs : s.capturedResult = r0 := hcap s (List.mem_cons_self _ _)
      have hrest : ∀ x ∈ rest, x.capturedResult = r0 := fun x hx =>
        hcap x (List.mem_cons_of_mem _ hx)
      cases i with
      | zero =>
        simp [runSubmitted, hop] at h ⊢
        cases r with
        | ok c => simp at h
        | error e' => simp [runCartOperationSettle, hs]
      | succ n =>
        simp only [runSubmitted, hop, List.get?_cons_succ] at h ⊢
        exact ih _ hrest n e h

/-- Claim C10: when the task of an operation submitted in a batch rejects,
the operation's promise resolves with the snapshot captured when the
operation was invoked (null for a fresh coordinator), not with the
coordinator's snapshot at settlement time. -/
theorem failed_operation_resolves_with_captured_snapshot
    (cfg : ProviderConfig CT BT LT E) (st0 : CartState CT)
    (ops : List (CartOp BT LT)) (i : Nat) (e : CartError E)
    (h : (runBatch cfg st0 ops).outcomes.get? i = some (.error e)) :
    (runBatch cfg st0 ops).rets.get? i = some st0.cart := by
  cases ops with
  | nil => simp [runBatch] at h
  | cons op rest =>
    obtain ⟨hsubs, -, -, -⟩ := submitAll_spec cfg (op :: rest) st0
    have hcap : ∀ s ∈ (submitAll cfg st0 (op :: rest)).subs,
        s.capturedResult = st0.cart := by
      intro s hs
      rw [hsubs] at hs
      obtain ⟨o, -, rfl⟩ := List.mem_map.mp hs
      rfl
    have hboth : (runBatch cfg st0 (op :: rest)).outcomes
          = (runSubmitted cfg (submitAll cfg st0 (op :: rest)).state
              (submitAll cfg st0 (op :: rest)).subs).outcomes
        ∧ (runBatch cfg st0 (op :: rest)).rets
          = (runSubmitted cfg (submitAll cfg st0 (op :: rest)).state
              (submitAll cfg st0 (op :: rest)).subs).rets := by
      simp only [runBatch]
      cases (runSubmitted cfg (submitAll cfg st0 (op :: rest)).state
          (submitAll cfg st0 (op :: rest)).subs).hung <;> simp
    rw [hboth.1] at h
    rw [hboth.2]
    exact runSubmitted_rets_error cfg st0.cart _ _ hcap i e h

/-- Witness for claim C10: a batch of a successful create followed by a
rejecting updateBuyer; the failed operation's promise resolves with the
pre-batch snapshot (null), while the coordinator's snapshot at settlement
time is the created cart c1. -/
theorem failed_operation_resolves_with_captured_snapshot_witness :
    ((runBatch cfgW initialState [CartOp.create {}, CartOp.updateBuyer ()]).outcomes.get? 1
        = some (Except.error (CartError.provider "boom")))
    ∧ ((runBatch cfgW initialState [CartOp.create {}, CartOp.updateBuyer ()]).rets.get? 1
        = some none)
    ∧ ((runBatch cfgW initialState [CartOp.create {}, CartOp.updateBuyer ()]).state.cart
        = some "c1") := by
  refine ⟨by decide, ?_, by decide⟩
  exact failed_operation_resolves_with_captured_snapshot cfgW initialState
    [CartOp.create {}, CartOp.updateBuyer ()] 1 (CartError.provider "boom") (by decide)

/-- Claim C3: when an operation's task rejects with a provider failure, the
rejection is delivered to the onError sink exactly once and never thrown to
the caller (the operation's promise resolves, with the snapshot captured at
invocation), the snapshot and stored previous revision are left untouched,
and status transitions back to READY with a statuschange event dispatched
after the sink delivery. -/
theorem provider_failure_sink_once_state_intact (cfg : ProviderConfig CT BT LT E)
    (st : CartState CT) (op : CartOp BT LT) (e : E)
    (h : (operationTask cfg st.cart op).2 = .settled (.error (.provider e))) :
    (runBatch cfg st [op]).rets = [st.cart]
    ∧ (runBatch cfg st [op]).state.cart = st.cart
    ∧ (runBatch cfg st [op]).state.previousCartRevisionId = st.previousCartRevisionId
    ∧ (runBatch cfg st [op]).state.status = .READY
    ∧ (runBatch cfg st [op]).effects
        = [Effect.statuschange .UPDATING] ++ (operationTask cfg st.cart op).1
          ++ [Effect.errorSink (.provider e), Effect.statuschange .READY]
          ++ onQueueIdle cfg (runBatch cfg st [op]).state
    ∧ (runBatch cfg st [op]).effects.countP isErrorSink = 1 := by
  rcases hop : operationTask cfg st.cart op with ⟨evs, outc⟩
  rw [hop] at h
  simp only at h
  subst h
  have hevs : evs.countP isErrorSink = 0 := by
    have h2 := operationTask_no_errorSink cfg st.cart op
    rw [hop] at h2
    exact h2
  refine ⟨?_, ?_, ?_, ?_, ?_, ?_⟩ <;>
    simp [runBatch, submitAll, runCartOperationSubmit, runSubmitted, hop,
      runCartOperationSettle, List.countP_append, List.countP_cons, hevs,
      onQueueIdle_no_errorSink, isErrorSink]

/-- Claim C5: the status enumeration has exactly the values IDLE, UPDATING
and READY; status is IDLE initially; a single operation run from IDLE or
READY produces the status trajectory IDLE-or-READY, then UPDATING when it
starts, then READY when its task settles (success or failure), each
transition dispatched as a statuschange event; and the final READY state is
not terminal, being a legal starting status for the next operation. -/
theorem status_transition_protocol (cfg : ProviderConfig CT BT LT E)
    (st : CartState CT) (op : CartOp BT LT) (r : Except (CartError E) CT)
    (hsettle : (operationTask cfg st.cart op).2 = .settled r)
    (hst : st.status = .IDLE ∨ st.status = .READY) :
    (∀ s : CartStatus, s = .IDLE ∨ s = .UPDATING ∨ s = .READY)
    ∧ (initialState : CartState CT).status = .IDLE
    ∧ (st.status :: (runBatch cfg st [op]).effects.filterMap statusOf
          = [.IDLE, .UPDATING, .READY]
        ∨ st.status :: (runBatch cfg st [op]).effects.filterMap statusOf
          = [.READY, .UPDATING, .READY])
    ∧ (runBatch cfg st [op]).state.status = .READY := by
  have hkey : (runBatch cfg st [op]).effects.filterMap statusOf = [.UPDATING, .READY]
      ∧ (runBatch cfg st [op]).state.status = .READY := by
    rcases hop : operationTask cfg st.cart op with ⟨evs, outc⟩
    rw [hop] at hsettle
    simp only at hsettle
    subst hsettle
    have hevs : evs.filterMap statusOf = [] := by
      have h2 := operationTask_settled_no_status cfg st.cart op r (by rw [hop])
      rw [hop] at h2
      exact h2
    cases r with
    | ok c =>
      constructor <;>
        simp [runBatch, submitAll, runCartOperationSubmit, runSubmitted, hop,
          runCartOperationSettle, List.filterMap_append, hevs, statusOf,
          onQueueIdle_no_status]
    | error e =>
      constructor <;>
        simp [runBatch, submitAll, runCartOperationSubmit, runSubmitted, hop,
          runCartOperationSettle, List.filterMap_append, hevs, statusOf,
          onQueueIdle_no_status]
  refine ⟨fun s => by cases s <;> simp, rfl, ?_, hkey.2⟩
  rcases hst with h | h
  · left
    rw [h, hkey.1]
  · right
    rw [h, hkey.1]

/-- Claim C8: the public fetch method's caller-facing promise carries no
snapshot (it resolves with undefined, modelled as Unit, whatever the provider
returns), yet the fetch operation runs through the serializer exactly like
any other operation: on success the provider's result becomes the new
current snapshot, the internal operation promise resolves with it, and the
full statuschange, provider-call and idle or change event sequence is
produced. -/
theorem fetch_discards_result_still_participates (cfg : ProviderConfig CT BT LT E)
    (st : CartState CT) (id : String) (c : CT)
    (h : cfg.fetch id = .ok c) :
    (fetchMethod cfg st id).1 = ()
    ∧ (fetchMethod cfg st id).2 = runBatch cfg st [.fetch id]
    ∧ (runBatch cfg st [.fetch id]).state.cart = some c
    ∧ (runBatch cfg st [.fetch id]).state.status = .READY
    ∧ (runBatch cfg st [.fetch id]).rets = [some c]
    ∧ (runBatch cfg st [.fetch id]).effects
        = [Effect.statuschange .UPDATING, Effect.callFetch id, Effect.statuschange .READY]
          ++ onQueueIdle cfg (runBatch cfg st [.fetch id]).state := by
  refine ⟨rfl, rfl, ?_, ?_, ?_, ?_⟩ <;>
    simp [runBatch, submitAll, runCartOperationSubmit, runSubmitted, operationTask,
      mapProviderError, h, runCartOperationSettle]

/-- A concrete coordinator state holding cart c0 with status READY, used to
instantiate the failure-handling theorem. -/
def stW : CartState String :=
  { status := .READY, cart := some "c0", previousCartRevisionId := none }

/-- Witness for claim C3: the rejecting updateBuyer of the concrete provider,
run on a coordinator holding cart c0. -/
theorem provider_failure_sink_once_state_intact_witness :
    ((operationTask cfgW stW.cart (CartOp.updateBuyer ())).2
        = .settled (.error (.provider "boom")))
    ∧ ((runBatch cfgW stW [CartOp.updateBuyer ()]).rets = [stW.cart]
       ∧ (runBatch cfgW stW [CartOp.updateBuyer ()]).state.cart = stW.cart
       ∧ (runBatch cfgW stW [CartOp.updateBuyer ()]).state.previousCartRevisionId
           = stW.previousCartRevisionId
       ∧ (runBatch cfgW stW [CartOp.updateBuyer ()]).state.status = .READY
       ∧ (runBatch cfgW stW [CartOp.updateBuyer ()]).effects
           = [Effect.statuschange .UPDATING]
             ++ (operationTask cfgW stW.cart (CartOp.updateBuyer ())).1
             ++ [Effect.errorSink (.provider "boom"), Effect.statuschange .READY]
             ++ onQueueIdle cfgW (runBatch cfgW stW [CartOp.updateBuyer ()]).state
       ∧ (runBatch cfgW stW [CartOp.updateBuyer ()]).effects.countP isErrorSink = 1) :=
  ⟨by decide,
   provider_failure_sink_once_state_intact cfgW stW (CartOp.updateBuyer ()) "boom"
     (by decide)⟩

/-- Witness for claim C5: a successful create run on the fresh coordinator,
whose status trajectory is IDLE, UPDATING, READY. -/
theorem status_transition_protocol_witness :
    ((operationTask cfgW (initialState : CartState String).cart (CartOp.create {})).2
        = .settled (.ok "c1"))
    ∧ ((initialState : CartState String).status = .IDLE
        ∨ (initialState : CartState String).status = .READY)
    ∧ ((∀ s : CartStatus, s = .IDLE ∨ s = .UPDATING ∨ s = .READY)
       ∧ (initialState : CartState String).status = .IDLE
       ∧ ((initialState : CartState String).status
            :: (runBatch cfgW initialState [CartOp.create {}]).effects.filterMap statusOf
              = [.IDLE, .UPDATING, .READY]
          ∨ (initialState : CartState String).status
            :: (runBatch cfgW initialState [CartOp.create {}]).effects.filterMap statusOf
              = [.READY, .UPDATING, .READY])
       ∧ (runBatch cfgW (initialState : CartState String)
            [CartOp.create {}]).state.status = .READY) :=
  ⟨by decide, Or.inl rfl,
   status_transition_protocol cfgW initialState (CartOp.create {}) (.ok "c1")
     (by decide) (Or.inl rfl)⟩

/-- Witness for claim C8: a fetch of the concrete provider succeeds with f1;
the caller-facing value is unit while the coordinator assimilates f1. -/
theorem fetch_discards_result_still_participates_witness :
    (cfgW.fetch "x" = .ok "f1")
    ∧ ((fetchMethod cfgW (initialState : CartState String) "x").1 = ()
       ∧ (fetchMethod cfgW (initialState : CartState String) "x").2
           = runBatch cfgW initialState [.fetch "x"]
       ∧ (runBatch cfgW (initialState : CartState String)
            [CartOp.fetch "x"]).state.cart = some "f1"
       ∧ (runBatch cfgW (initialState : CartState String)
            [CartOp.fetch "x"]).state.status = .READY
       ∧ (runBatch cfgW (initialState : CartState String)
            [CartOp.fetch "x"]).rets = [some "f1"]
       ∧ (runBatch cfgW (initialState : CartState String) [CartOp.fetch "x"]).effects
           = [Effect.statuschange .UPDATING, Effect.callFetch "x",
              Effect.statuschange .READY]
             ++ onQueueIdle cfgW
                 (runBatch cfgW (initialState : CartState String)
                   [CartOp.fetch "x"]).state) :=
  ⟨rfl, fetch_discards_result_still_participates cfgW initialState "x" "f1" rfl⟩
